import Mathlib

/-!
Shallow embedding of the versioned datapoint codec of binrw-datapoints
(src/main.rs).  Bytes are modelled as natural numbers below 256, a seekable
stream as a Cursor (byte list plus position) with the gap-filling write
semantics of std::io::Cursor over a byte vector, and fallible binrw
operations as Except values over an abstraction of the binrw error type.
-/

namespace BinrwDatapoints

/-- Abstraction of the binrw error values this program can produce.
noVariantMatched: the derived enum reader found no variant whose pre_assert
accepted the imported id (the UnknownTag case of the documentation).
idConvertFail: the AssertFail raised by DpIoDefault::new and DpIoSimple::new
when the u16 id does not fit in a u8 (the TagWidthOverflow case).
sizeOverflow: the AssertFail raised by enum_writer when the datapoint size
exceeds the u8 maximum (the LengthOverflow case).
truncated: the stream ended before a field could be read. -/
inductive BinError where
  | noVariantMatched : BinError
  | idConvertFail : BinError
  | sizeOverflow : BinError
  | truncated : BinError
deriving DecidableEq

/-- The catalog enum generated by generate_dp_enum! in main.rs: Variant1
carries a u32 payload (tag 0x10 = 16) and Variant2 a u8 payload
(tag 0x20 = 32).  Payloads are Nats; well-formed values keep them inside the
Rust integer ranges (see MyEnum.wf). -/
inductive MyEnum where
  | Variant1 : Nat → MyEnum
  | Variant2 : Nat → MyEnum
deriving DecidableEq

/-- get_id of the generated impl: the fixed tag of the active variant. -/
def MyEnum.get_id : MyEnum → Nat
  | .Variant1 _ => 16
  | .Variant2 _ => 32

/-- Payload range invariant carried by the Rust payload types u32 and u8. -/
def MyEnum.wf : MyEnum → Prop
  | .Variant1 n => n < 4294967296
  | .Variant2 n => n < 256

instance : DecidablePred MyEnum.wf := fun v =>
  match v with
  | .Variant1 n => inferInstanceAs (Decidable (n < 4294967296))
  | .Variant2 n => inferInstanceAs (Decidable (n < 256))

/-- Little-endian bytes of a u16 value. -/
def u16le (n : Nat) : List Nat := [n % 256, n / 256 % 256]

/-- Little-endian bytes of a u32 value. -/
def u32le (n : Nat) : List Nat :=
  [n % 256, n / 256 % 256, n / 65536 % 256, n / 16777216 % 256]

/-- Derived BinWrite for MyEnum under brw(little): the active variant's
single field, little-endian; the enum itself writes no discriminant. -/
def MyEnum.writePayload : MyEnum → List Nat
  | .Variant1 n => u32le n
  | .Variant2 n => [n % 256]

/-- Read one byte. -/
def readU8 : List Nat → Option (Nat × List Nat)
  | [] => none
  | b :: rest => some (b, rest)

/-- Read a little-endian u16. -/
def readU16le : List Nat → Option (Nat × List Nat)
  | b0 :: b1 :: rest => some (b0 + 256 * b1, rest)
  | _ => none

/-- Read a little-endian u32. -/
def readU32le : List Nat → Option (Nat × List Nat)
  | b0 :: b1 :: b2 :: b3 :: rest =>
    some (b0 + 256 * b1 + 65536 * b2 + 16777216 * b3, rest)
  | _ => none

/-- Derived BinRead for MyEnum with import(id: u16): the variants are tried
in declaration order, each guarded by pre_assert(id == tag); if no guard
accepts the imported id the read fails (noVariantMatched). -/
def MyEnum.readWithId (id : Nat) (bs : List Nat) : Except BinError (MyEnum × List Nat) :=
  if id = 16 then
    match readU32le bs with
    | some (n, rest) => .ok (.Variant1 n, rest)
    | none => .error .truncated
  else if id = 32 then
    match readU8 bs with
    | some (n, rest) => .ok (.Variant2 n, rest)
    | none => .error .truncated
  else .error .noVariantMatched

/-- Seekable byte stream: std::io::Cursor over a byte vector. -/
structure Cursor where
  data : List Nat
  pos : Nat
deriving DecidableEq

/-- Cursor::new over an empty vector. -/
def freshCursor : Cursor := ⟨[], 0⟩

/-- Writing the bytes bs at offset pos into data, with the gap-filling
semantics of the Write impl of std::io::Cursor over a byte vector: bytes
before pos are kept, a gap past the end is filled with zeros, and bs
overwrites in place, extending the vector when it runs past the end. -/
def writeBytesAt (data : List Nat) (pos : Nat) (bs : List Nat) : List Nat :=
  data.take pos ++ List.replicate (pos - data.length) 0 ++ bs ++ data.drop (pos + bs.length)

/-- Write bytes at the current position and advance it. -/
def Cursor.write (c : Cursor) (bs : List Nat) : Cursor :=
  ⟨writeBytesAt c.data c.pos bs, c.pos + bs.length⟩

/-- seek(SeekFrom::Start(n)): an absolute seek. -/
def Cursor.seekStart (c : Cursor) (n : Nat) : Cursor := ⟨c.data, n⟩

/-- FromStreamPos for u8 (try_from_stream_position): u8::try_from on the
byte count, none when it exceeds the u8 maximum of 255. -/
def tryFromStreamPosition (n : Nat) : Option Nat :=
  if n ≤ 255 then some n else none

/-- The id conversion performed by DpIoDefault::new and DpIoSimple::new:
try_into from u16 to u8, an AssertFail when the tag does not fit in one
byte. -/
def convertIdToU8 (id : Nat) : Except BinError Nat :=
  if id ≤ 255 then .ok id else .error .idConvertFail

/-- DpIoDefault::new (version 0): converts the u16 tag to the 1-byte id
before anything is written. -/
def DpIoDefaultNew (inner : MyEnum) : Except BinError (Nat × MyEnum) :=
  match convertIdToU8 inner.get_id with
  | .ok id => .ok (id, inner)
  | .error e => .error e

/-- DpIoSimple::new (version 1): converts the u16 tag to the 1-byte id
before anything is written. -/
def DpIoSimpleNew (inner : MyEnum) : Except BinError (Nat × MyEnum) :=
  match convertIdToU8 inner.get_id with
  | .ok id => .ok (id, inner)
  | .error e => .error e

/-- DpIoV2::new (version >= 2): total, the id stays a u16 and no width
conversion takes place. -/
def DpIoV2New (inner : MyEnum) : Nat × MyEnum := (inner.get_id, inner)

/-- enum_writer of DpIo: writes the payload at the current position, then
computes bytes_written = stream_position - size_of(SizeType); when a size
field is present the count is converted to u8 (sizeOverflow past 255, and
only after the payload was serialized) and backpatched by seeking to
Start(0), leaving the cursor right after the size byte. -/
def enum_writer (szWidth : Nat) (inner : MyEnum) (writer : Cursor) : Except BinError Cursor :=
  let w1 := writer.write inner.writePayload
  let bytesWritten := w1.pos - szWidth
  if 0 < szWidth then
    match tryFromStreamPosition bytesWritten with
    | some size => .ok ((w1.seekStart 0).write [size])
    | none => .error .sizeOverflow
  else .ok w1

/-- BinWrite for DpIo of a given SizeType width: the ignored size field
still performs its seek_before(SeekFrom::Start(size_of(SizeType))), then the
id bytes are written, then enum_writer handles the payload and the
backpatch. -/
def writeDpIo (szWidth : Nat) (idBytes : List Nat) (inner : MyEnum) (c : Cursor) :
    Except BinError Cursor :=
  enum_writer szWidth inner ((c.seekStart szWidth).write idBytes)

/-- BinRead for DpIoDefault = DpIo with unit SizeType and u8 id: no size
byte, a 1-byte id, then the enum payload selected by the id. -/
def readDpIoDefault (bs : List Nat) : Except BinError (MyEnum × List Nat) :=
  match readU8 bs with
  | none => .error .truncated
  | some (id, rest) => MyEnum.readWithId id rest

/-- BinRead for DpIoSimple = DpIo with u8 SizeType and u8 id: a temp size
byte that is read and discarded, then a 1-byte id, then the payload. -/
def readDpIoSimple (bs : List Nat) : Except BinError (MyEnum × List Nat) :=
  match readU8 bs with
  | none => .error .truncated
  | some (_size, rest) =>
    match readU8 rest with
    | none => .error .truncated
    | some (id, rest2) => MyEnum.readWithId id rest2

/-- BinRead for DpIoV2 = DpIo with u8 SizeType and u16 id: a temp size byte
that is read and discarded, then a little-endian 2-byte id, then the
payload. -/
def readDpIoV2 (bs : List Nat) : Except BinError (MyEnum × List Nat) :=
  match readU8 bs with
  | none => .error .truncated
  | some (_size, rest) =>
    match readU16le rest with
    | none => .error .truncated
    | some (id, rest2) => MyEnum.readWithId id rest2

/-- MyEnum::read_with_dp_version: version 0 selects DpIoDefault, version 1
DpIoSimple, any other version DpIoV2; the inner value is returned. -/
def read_with_dp_version (bs : List Nat) (version : Nat) : Except BinError MyEnum :=
  match version with
  | 0 => (readDpIoDefault bs).map Prod.fst
  | 1 => (readDpIoSimple bs).map Prod.fst
  | _ => (readDpIoV2 bs).map Prod.fst

/-- MyEnum::write_with_dp_version: builds the version's DpIo wrapper (which
for versions 0 and 1 can already fail converting the id, before the stream
is touched) and writes it to the cursor. -/
def write_with_dp_version (v : MyEnum) (c : Cursor) (version : Nat) : Except BinError Cursor :=
  match version with
  | 0 =>
    match DpIoDefaultNew v with
    | .error e => .error e
    | .ok (id, inner) => writeDpIo 0 [id] inner c
  | 1 =>
    match DpIoSimpleNew v with
    | .error e => .error e
    | .ok (id, inner) => writeDpIo 1 [id] inner c
  | _ => writeDpIo 1 (u16le (DpIoV2New v).1) (DpIoV2New v).2 c

/-- Recomposing the four little-endian base-256 digits of a u32 value gives
the value back. -/
theorem u32le_decode (n : Nat) (h : n < 4294967296) :
    n % 256 + 256 * (n / 256 % 256) + 65536 * (n / 65536 % 256) +
      16777216 * (n / 16777216 % 256) = n := by omega

/-- Writing at offset zero keeps nothing of the old data before the written
bytes. -/
theorem writeBytesAt_zero (X bs : List Nat) :
    writeBytesAt X 0 bs = bs ++ X.drop bs.length := by
  simp [writeBytesAt]

/-- C1 counterexample: the claim that version >= 2 frames carry no length
prefix fails on the code, because DpIoV2 instantiates DpIo with a u8
SizeType.  Decoding the bytes 05 20 00 FF under version 2 succeeds with
Variant2 255 (size byte 5 at offset 0, tag 0x20 at bytes 1..2), whereas a
2-byte tag at byte 0 would give the unknown tag 0x2005, and encoding
Variant1 1 under version 2 yields 7 bytes, not the claimed 6. -/
theorem extendedFraming_counterexample :
    read_with_dp_version [5, 32, 0, 255] 2 = Except.ok (MyEnum.Variant2 255) ∧
    ¬ (∃ c, write_with_dp_version (MyEnum.Variant1 1) freshCursor 2 = Except.ok c ∧
        c.data.length = 6) := by
  refine ⟨rfl, ?_⟩
  rintro ⟨c, hc, hl⟩
  have he : write_with_dp_version (MyEnum.Variant1 1) freshCursor 2 =
      Except.ok (⟨[6, 16, 0, 1, 0, 0, 0], 1⟩ : Cursor) := rfl
  rw [he] at hc
  injection hc with h1
  rw [← h1] at hl
  exact absurd hl (by decide)

/-- C1 (amended): for every version value >= 2, a frame carries a 1-byte
length prefix at byte 0 and the tag is read as a 2-byte little-endian
unsigned integer starting at byte 1; encoding the 32-bit-payload variant
(tag 0x10) with value 1 under version 2 produces exactly 7 bytes: length
prefix 6, 2-byte tag, 4-byte payload. -/
theorem extendedFraming_amended (ver : Nat) (h : 2 ≤ ver) :
    (∃ c, write_with_dp_version (MyEnum.Variant1 1) freshCursor ver = Except.ok c ∧
      c.data = [6, 16, 0, 1, 0, 0, 0] ∧ c.data.length = 7) ∧
    (∀ s b0 b1 rest, read_with_dp_version (s :: b0 :: b1 :: rest) ver =
      (MyEnum.readWithId (b0 + 256 * b1) rest).map Prod.fst) := by
  obtain ⟨k, rfl⟩ : ∃ k, ver = k + 2 := ⟨ver - 2, by omega⟩
  refine ⟨⟨⟨[6, 16, 0, 1, 0, 0, 0], 1⟩, rfl, rfl, rfl⟩, ?_⟩
  intro s b0 b1 rest
  rfl

/-- C1 amended witness at version 2. -/
theorem extendedFraming_amended_witness :
    (∃ c, write_with_dp_version (MyEnum.Variant1 1) freshCursor 2 = Except.ok c ∧
      c.data = [6, 16, 0, 1, 0, 0, 0] ∧ c.data.length = 7) ∧
    read_with_dp_version [5, 32, 0, 255] 2 =
      (MyEnum.readWithId (32 + 256 * 0) [255]).map Prod.fst :=
  ⟨(extendedFraming_amended 2 (by decide)).1,
   (extendedFraming_amended 2 (by decide)).2 5 32 0 [255]⟩

/-- C2: for every catalog variant v (payload inside its Rust integer range)
and every version in 0, 1, 2, encoding v to a fresh stream and decoding the
produced bytes from a fresh cursor succeeds and returns v. -/
theorem roundTrip (v : MyEnum) (ver : Nat) (hver : ver ≤ 2) (hwf : MyEnum.wf v) :
    ∃ c, write_with_dp_version v freshCursor ver = Except.ok c ∧
      read_with_dp_version c.data ver = Except.ok v := by
  interval_cases ver
  · cases v with
    | Variant1 n =>
      refine ⟨⟨16 :: u32le n, 5⟩, rfl, ?_⟩
      have h1 : read_with_dp_version (16 :: u32le n) 0 =
          Except.ok (MyEnum.Variant1 (n % 256 + 256 * (n / 256 % 256) +
            65536 * (n / 65536 % 256) + 16777216 * (n / 16777216 % 256))) := rfl
      rw [h1, u32le_decode n hwf]
    | Variant2 n =>
      refine ⟨⟨32 :: [n % 256], 2⟩, rfl, ?_⟩
      have h1 : read_with_dp_version (32 :: [n % 256]) 0 =
          Except.ok (MyEnum.Variant2 (n % 256)) := rfl
      rw [h1, Nat.mod_eq_of_lt hwf]
  · cases v with
    | Variant1 n =>
      refine ⟨⟨5 :: 16 :: u32le n, 1⟩, rfl, ?_⟩
      have h1 : read_with_dp_version (5 :: 16 :: u32le n) 1 =
          Except.ok (MyEnum.Variant1 (n % 256 + 256 * (n / 256 % 256) +
            65536 * (n / 65536 % 256) + 16777216 * (n / 16777216 % 256))) := rfl
      rw [h1, u32le_decode n hwf]
    | Variant2 n =>
      refine ⟨⟨2 :: 32 :: [n % 256], 1⟩, rfl, ?_⟩
      have h1 : read_with_dp_version (2 :: 32 :: [n % 256]) 1 =
          Except.ok (MyEnum.Variant2 (n % 256)) := rfl
      rw [h1, Nat.mod_eq_of_lt hwf]
  · cases v with
    | Variant1 n =>
      have hsel : write_with_dp_version (MyEnum.Variant1 n) freshCursor 2 =
          writeDpIo 1 (u16le 16) (MyEnum.Variant1 n) freshCursor := rfl
      refine ⟨⟨6 :: 16 :: 0 :: u32le n, 1⟩, ?_, ?_⟩
      · rw [hsel]
        rfl
      · have h1 : read_with_dp_version (6 :: 16 :: 0 :: u32le n) 2 =
            Except.ok (MyEnum.Variant1 (n % 256 + 256 * (n / 256 % 256) +
              65536 * (n / 65536 % 256) + 16777216 * (n / 16777216 % 256))) := rfl
        rw [h1, u32le_decode n hwf]
    | Variant2 n =>
      have hsel : write_with_dp_version (MyEnum.Variant2 n) freshCursor 2 =
          writeDpIo 1 (u16le 32) (MyEnum.Variant2 n) freshCursor := rfl
      refine ⟨⟨3 :: 32 :: 0 :: [n % 256], 1⟩, ?_, ?_⟩
      · rw [hsel]
        rfl
      · have h1 : read_with_dp_version (3 :: 32 :: 0 :: [n % 256]) 2 =
            Except.ok (MyEnum.Variant2 (n % 256)) := rfl
        rw [h1, Nat.mod_eq_of_lt hwf]

/-- C2 witness at Variant1 5, version 1. -/
theorem roundTrip_witness :
    ∃ c, write_with_dp_version (MyEnum.Variant1 5) freshCursor 1 = Except.ok c ∧
      read_with_dp_version c.data 1 = Except.ok (MyEnum.Variant1 5) :=
  roundTrip (MyEnum.Variant1 5) 1 (by decide) (by decide)

/-- C3: under Simple framing (version 1), every catalog variant encodes to
a frame whose byte at offset 0 equals the exact byte count of the tag and
payload bytes that follow it. -/
theorem simpleLengthExact (v : MyEnum) :
    write_with_dp_version v freshCursor 1 =
      Except.ok ⟨([v.get_id] ++ v.writePayload).length ::
        ([v.get_id] ++ v.writePayload), 1⟩ := by
  cases v <;> rfl

/-- C3 witness at Variant2 255. -/
theorem simpleLengthExact_witness :
    write_with_dp_version (MyEnum.Variant2 255) freshCursor 1 =
      Except.ok ⟨([(MyEnum.Variant2 255).get_id] ++ (MyEnum.Variant2 255).writePayload).length ::
        ([(MyEnum.Variant2 255).get_id] ++ (MyEnum.Variant2 255).writePayload), 1⟩ :=
  simpleLengthExact (MyEnum.Variant2 255)

/-- C4: for every version in 0, 1, 2, decoding a frame whose tag field
holds a value absent from the catalog (neither 16 nor 32) fails with the
no-variant-matched error (UnknownTag) instead of returning a value. -/
theorem unknownTagRejected (t s : Nat) (rest : List Nat)
    (h16 : t ≠ 16) (h32 : t ≠ 32) (hw : t < 65536) :
    read_with_dp_version (t :: rest) 0 = Except.error BinError.noVariantMatched ∧
    read_with_dp_version (s :: t :: rest) 1 = Except.error BinError.noVariantMatched ∧
    read_with_dp_version (s :: (u16le t ++ rest)) 2 = Except.error BinError.noVariantMatched := by
  have hid : MyEnum.readWithId t rest = Except.error BinError.noVariantMatched := by
    unfold MyEnum.readWithId
    rw [if_neg h16, if_neg h32]
  refine ⟨?_, ?_, ?_⟩
  · show (MyEnum.readWithId t rest).map Prod.fst = Except.error BinError.noVariantMatched
    rw [hid]
    rfl
  · show (MyEnum.readWithId t rest).map Prod.fst = Except.error BinError.noVariantMatched
    rw [hid]
    rfl
  · show (MyEnum.readWithId (t % 256 + 256 * (t / 256 % 256)) rest).map Prod.fst =
      Except.error BinError.noVariantMatched
    have ht : t % 256 + 256 * (t / 256 % 256) = t := by omega
    rw [ht, hid]
    rfl

/-- C4 witness at tag 5. -/
theorem unknownTagRejected_witness :
    read_with_dp_version (5 :: []) 0 = Except.error BinError.noVariantMatched ∧
    read_with_dp_version (0 :: 5 :: []) 1 = Except.error BinError.noVariantMatched ∧
    read_with_dp_version (0 :: (u16le 5 ++ [])) 2 = Except.error BinError.noVariantMatched :=
  unknownTagRejected 5 0 [] (by decide) (by decide) (by decide)

/-- C5: the id conversion performed by DpIoDefault::new and DpIoSimple::new
(used by versions 0 and 1, before any byte reaches the stream) rejects every
tag above 255 with the TagWidthOverflow AssertFail; every actual catalog tag
fits in one byte, so the conversion succeeds on real values; and version
>= 2 performs no width conversion and its write never fails. -/
theorem tagWidthGuard (t : Nat) (h : 255 < t) :
    convertIdToU8 t = Except.error BinError.idConvertFail ∧
    (∀ v : MyEnum, convertIdToU8 v.get_id = Except.ok v.get_id) ∧
    (∀ (v : MyEnum) (c : Cursor) (ver : Nat), 2 ≤ ver →
      ∃ c2, write_with_dp_version v c ver = Except.ok c2) := by
  refine ⟨?_, ?_, ?_⟩
  · unfold convertIdToU8
    rw [if_neg (by omega)]
  · intro v
    cases v <;> rfl
  · intro v c ver hver
    obtain ⟨k, rfl⟩ : ∃ k, ver = k + 2 := ⟨ver - 2, by omega⟩
    cases v with
    | Variant1 n => exact ⟨_, rfl⟩
    | Variant2 n => exact ⟨_, rfl⟩

/-- C5 witness at tag 300 and value Variant1 7. -/
theorem tagWidthGuard_witness :
    convertIdToU8 300 = Except.error BinError.idConvertFail ∧
    convertIdToU8 (MyEnum.Variant1 7).get_id = Except.ok (MyEnum.Variant1 7).get_id ∧
    ∃ c2, write_with_dp_version (MyEnum.Variant1 7) freshCursor 2 = Except.ok c2 :=
  ⟨(tagWidthGuard 300 (by decide)).1,
   (tagWidthGuard 300 (by decide)).2.1 (MyEnum.Variant1 7),
   (tagWidthGuard 300 (by decide)).2.2 (MyEnum.Variant1 7) freshCursor 2 (by decide)⟩

/-- C6: under Simple framing the write fails with the LengthOverflow error
exactly when the tag plus payload byte count exceeds 255 (which never
happens for this catalog, both sides of the equivalence being false on every
variant), and the underlying size conversion of enum_writer, applied after
the payload has been serialized, yields none exactly past 255. -/
theorem lengthOverflowCondition (v : MyEnum) (c : Cursor) :
    (write_with_dp_version v c 1 = Except.error BinError.sizeOverflow ↔
      255 < ([v.get_id] ++ v.writePayload).length) ∧
    (∀ n : Nat, tryFromStreamPosition n = none ↔ 255 < n) := by
  constructor
  · cases v with
    | Variant1 n =>
      have hok : write_with_dp_version (MyEnum.Variant1 n) c 1 =
          Except.ok (Cursor.write
            (Cursor.seekStart
              (Cursor.write (Cursor.write (Cursor.seekStart c 1) [16]) (u32le n)) 0) [5]) := rfl
      constructor
      · intro hcontra
        exact Except.noConfusion (hok.symm.trans hcontra)
      · intro hlen
        rw [show ([(MyEnum.Variant1 n).get_id] ++ (MyEnum.Variant1 n).writePayload).length = 5
          from rfl] at hlen
        exact absurd hlen (by decide)
    | Variant2 n =>
      have hok : write_with_dp_version (MyEnum.Variant2 n) c 1 =
          Except.ok (Cursor.write
            (Cursor.seekStart
              (Cursor.write (Cursor.write (Cursor.seekStart c 1) [32]) [n % 256]) 0) [2]) := rfl
      constructor
      · intro hcontra
        exact Except.noConfusion (hok.symm.trans hcontra)
      · intro hlen
        rw [show ([(MyEnum.Variant2 n).get_id] ++ (MyEnum.Variant2 n).writePayload).length = 2
          from rfl] at hlen
        exact absurd hlen (by decide)
  · intro n
    unfold tryFromStreamPosition
    split
    · next hle =>
      constructor
      · intro hsome
        exact Option.noConfusion hsome
      · intro hlt
        exact absurd hlt (by omega)
    · next hgt =>
      constructor
      · intro _
        omega
      · intro _
        rfl

/-- C6 witness at Variant1 3 on a fresh cursor, size conversion probed at
300. -/
theorem lengthOverflowCondition_witness :
    (write_with_dp_version (MyEnum.Variant1 3) freshCursor 1 =
        Except.error BinError.sizeOverflow ↔
      255 < ([(MyEnum.Variant1 3).get_id] ++ (MyEnum.Variant1 3).writePayload).length) ∧
    (tryFromStreamPosition 300 = none ↔ 255 < 300) :=
  ⟨(lengthOverflowCondition (MyEnum.Variant1 3) freshCursor).1,
   (lengthOverflowCondition (MyEnum.Variant1 3) freshCursor).2 300⟩

/-- C7: every version value >= 2 decodes and encodes exactly like version 2,
an open fallback rather than a rejection of unrecognized versions. -/
theorem versionFallback (ver : Nat) (h : 2 ≤ ver) :
    (∀ bs, read_with_dp_version bs ver = read_with_dp_version bs 2) ∧
    (∀ v c, write_with_dp_version v c ver = write_with_dp_version v c 2) := by
  obtain ⟨k, rfl⟩ : ∃ k, ver = k + 2 := ⟨ver - 2, by omega⟩
  exact ⟨fun bs => rfl, fun v c => rfl⟩

/-- C7 witness at version 7. -/
theorem versionFallback_witness :
    read_with_dp_version [5, 32, 0, 255] 7 = read_with_dp_version [5, 32, 0, 255] 2 ∧
    write_with_dp_version (MyEnum.Variant2 3) freshCursor 7 =
      write_with_dp_version (MyEnum.Variant2 3) freshCursor 2 :=
  ⟨(versionFallback 7 (by decide)).1 [5, 32, 0, 255],
   (versionFallback 7 (by decide)).2 (MyEnum.Variant2 3) freshCursor⟩

/-- C8: whenever the enum reader selected by an imported tag succeeds, the
tag derivable from the returned value's active variant (get_id) equals the
tag that was used to select that variant's reader. -/
theorem tagMatchesVariant (id : Nat) (bs : List Nat) (v : MyEnum) (rest : List Nat)
    (h : MyEnum.readWithId id bs = Except.ok (v, rest)) : MyEnum.get_id v = id := by
  unfold MyEnum.readWithId at h
  by_cases h16 : id = 16
  · subst h16
    rw [if_pos rfl] at h
    cases hr : readU32le bs with
    | none =>
      rw [hr] at h
      exact Except.noConfusion h
    | some p =>
      obtain ⟨val, r⟩ := p
      rw [hr] at h
      have h2 : Except.ok (Prod.mk (MyEnum.Variant1 val) r) = Except.ok (Prod.mk v rest) := h
      injection h2 with h3
      injection h3 with hv hr2
      rw [← hv]
      rfl
  · rw [if_neg h16] at h
    by_cases h32 : id = 32
    · subst h32
      rw [if_pos rfl] at h
      cases hr : readU8 bs with
      | none =>
        rw [hr] at h
        exact Except.noConfusion h
      | some p =>
        obtain ⟨val, r⟩ := p
        rw [hr] at h
        have h2 : Except.ok (Prod.mk (MyEnum.Variant2 val) r) = Except.ok (Prod.mk v rest) := h
        injection h2 with h3
        injection h3 with hv hr2
        rw [← hv]
        rfl
    · rw [if_neg h32] at h
      exact Except.noConfusion h

/-- C8 witness at tag 16 with payload bytes 01 00 00 00. -/
theorem tagMatchesVariant_witness : MyEnum.get_id (MyEnum.Variant1 1) = 16 :=
  tagMatchesVariant 16 [1, 0, 0, 0] (MyEnum.Variant1 1) [] rfl

/-- C9: for every version with a length prefix (1 and anything >= 2), the
decode result never depends on the declared length byte: two inputs that
differ only in byte 0 decode to the same outcome. -/
theorem lengthByteIgnored (ver : Nat) (h : 1 ≤ ver) (a b : Nat) (rest : List Nat) :
    read_with_dp_version (a :: rest) ver = read_with_dp_version (b :: rest) ver := by
  rcases ver with _ | _ | k
  · exact absurd h (by decide)
  · rfl
  · rfl

/-- C9 witness at version 1, length bytes 0 and 255. -/
theorem lengthByteIgnored_witness :
    read_with_dp_version (0 :: [16, 1, 0, 0, 0]) 1 =
      read_with_dp_version (255 :: [16, 1, 0, 0, 0]) 1 :=
  lengthByteIgnored 1 (by decide) 0 255 [16, 1, 0, 0, 0]

/-- C10 counterexample: the claim that encoding into a cursor positioned
past offset 0 miscomputes the size fails on the code.  Starting from the
5-byte stream 09 09 09 09 09 at position 3, encoding Variant2 255 under
version 1 overwrites the initial bytes as claimed, but the backpatched size
byte is 2, exactly the byte count of the tag plus payload that was written,
so the size is computed correctly. -/
theorem writePositionIndependent_counterexample :
    write_with_dp_version (MyEnum.Variant2 255) (⟨[9, 9, 9, 9, 9], 3⟩ : Cursor) 1 =
      Except.ok (⟨[2, 32, 255, 9, 9], 1⟩ : Cursor) ∧
    2 = ([32] ++ [255] : List Nat).length := ⟨rfl, rfl⟩

/-- C10 (amended): encoding ignores the cursor's stream position on entry
(the write begins with an absolute seek to the size-prefix width), the
backpatched size byte lands at absolute offset 0, and encoding into a cursor
positioned past offset 0 overwrites the stream's initial bytes; the size is
nevertheless computed correctly, equal to the tag plus payload byte count,
because the absolute seek makes the final position independent of the entry
position. -/
theorem writePositionIndependent (v : MyEnum) (d : List Nat) (p q ver : Nat) :
    write_with_dp_version v (⟨d, p⟩ : Cursor) ver = write_with_dp_version v (⟨d, q⟩ : Cursor) ver ∧
    (∀ c2, write_with_dp_version v (⟨d, p⟩ : Cursor) 1 = Except.ok c2 →
      c2.data.head? = some (([v.get_id] ++ v.writePayload).length) ∧ c2.pos = 1) := by
  constructor
  · rcases ver with _ | _ | k <;> cases v <;> rfl
  · intro c2 h
    cases v with
    | Variant1 n =>
      have he : write_with_dp_version (MyEnum.Variant1 n) (⟨d, p⟩ : Cursor) 1 =
          Except.ok (⟨writeBytesAt (writeBytesAt (writeBytesAt d 1 [16]) 2 (u32le n)) 0 [5],
            1⟩ : Cursor) := rfl
      rw [he] at h
      injection h with h1
      rw [← h1]
      constructor
      · rw [writeBytesAt_zero]
        rfl
      · rfl
    | Variant2 n =>
      have he : write_with_dp_version (MyEnum.Variant2 n) (⟨d, p⟩ : Cursor) 1 =
          Except.ok (⟨writeBytesAt (writeBytesAt (writeBytesAt d 1 [32]) 2 [n % 256]) 0 [2],
            1⟩ : Cursor) := rfl
      rw [he] at h
      injection h with h1
      rw [← h1]
      constructor
      · rw [writeBytesAt_zero]
        rfl
      · rfl

/-- C10 amended witness: Variant2 255 into the stream 09 09 09 09 09 at
entry positions 3 and 0 under version 1. -/
theorem writePositionIndependent_witness :
    write_with_dp_version (MyEnum.Variant2 255) (⟨[9, 9, 9, 9, 9], 3⟩ : Cursor) 1 =
      write_with_dp_version (MyEnum.Variant2 255) (⟨[9, 9, 9, 9, 9], 0⟩ : Cursor) 1 ∧
    ((⟨[2, 32, 255, 9, 9], 1⟩ : Cursor).data.head? =
      some (([(MyEnum.Variant2 255).get_id] ++ (MyEnum.Variant2 255).writePayload).length) ∧
     (⟨[2, 32, 255, 9, 9], 1⟩ : Cursor).pos = 1) :=
  ⟨(writePositionIndependent (MyEnum.Variant2 255) [9, 9, 9, 9, 9] 3 0 1).1,
   (writePositionIndependent (MyEnum.Variant2 255) [9, 9, 9, 9, 9] 3 0 1).2
     (⟨[2, 32, 255, 9, 9], 1⟩ : Cursor) rfl⟩

end BinrwDatapoints
